import Mathlib

/-!
Verification of the Legato Linux clock-sync platform adaptor
(`src/components/le_pa_clockSync/pa_clkSync_linux.c`).

The C file is shallowly embedded: C strings become `List Char` (no interior
NUL in any modelled input), machine integers become `Int` (with an explicit
wrap where the code casts), and the external capabilities the code calls
(`inet_pton` classification, `getaddrinfo` resolution, `popen`/`fgets`
process output, `le_clk_GetAbsoluteTime`, `localtime_r`) become fields of an
environment record `Env`, since their behaviour is decided outside this
repository.  Buffer mutation done by `NtpParseOutput` (the `*stringEnd = 0`
write) is made explicit: parsers return the possibly-mutated buffer.
Observable control-flow events (command construction by `snprintf`, a
resolution attempt, a `popen` execution attempt) are recorded in a trace so
that temporal claims about what is or is not attempted can be stated.
-/

namespace ClkSync

/-- Result codes of `le_result_t` used by this file. -/
inductive le_result where
  | LE_OK
  | LE_BAD_PARAMETER
  | LE_NOT_FOUND
  | LE_UNAVAILABLE
  | LE_UNSUPPORTED
  | LE_FAULT
  deriving DecidableEq, Repr

open le_result

/-- The fields of `struct tm` that the C file reads or writes. -/
structure Tm where
  tm_sec : Int
  tm_min : Int
  tm_hour : Int
  tm_mday : Int
  tm_mon : Int
  tm_year : Int
  tm_wday : Int
  deriving DecidableEq, Repr

/-- Model of `struct tm tm = {0}`, the zero-initialised broken-down time. -/
def Tm.zero : Tm := ⟨0, 0, 0, 0, 0, 0, 0⟩

/-- The `le_clkSync_ClockTime_t` output structure. -/
structure ClockTime where
  msec : Int
  sec : Int
  min : Int
  hour : Int
  day : Int
  mon : Int
  year : Int
  deriving DecidableEq, Repr

/-- Model of `memset(timePtr, 0, sizeof(le_clkSync_ClockTime_t))`: the all-zero struct. -/
def ClockTime.zero : ClockTime := ⟨0, 0, 0, 0, 0, 0, 0⟩

/-- The NUL character written by `*stringEnd = ..` in `NtpParseOutput`. -/
def nulChar : Char := Char.ofNat 0

/-- C `isspace` for the default locale. -/
def isSpaceC (c : Char) : Bool :=
  c = ' ' || c = '\t' || c = '\n' || c = '\x0b' || c = '\x0c' || c = '\r'

/-- Value of a run of leading decimal digits (helper for `strtol`). -/
def digitsValue (s : List Char) : Int :=
  (s.takeWhile Char.isDigit).foldl (fun a c => a * 10 + ((c.toNat : Int) - 48)) 0

/-- C `strtol(s, endp, 10)`: skip whitespace, optional sign, then the longest
run of decimal digits (no digits gives 0); the value is returned unbounded
since no modelled input overflows `long`. -/
def strtol (s : List Char) : Int :=
  match s.dropWhile isSpaceC with
  | '-' :: rest => - digitsValue rest
  | '+' :: rest => digitsValue rest
  | rest => digitsValue rest

/-- C `strstr(h, pat)`: index of the first occurrence of `pat` in `h`, or
`none` when absent (the C function returns a pointer into `h`, modelled as
the offset from the start of `h`). -/
def strstr (h pat : List Char) : Option Nat :=
  if pat.isPrefixOf h then some 0
  else
    match h with
    | [] => none
    | _ :: t => (strstr t pat).map (· + 1)

/-- The `(int16_t)` cast of a `long` value, two's complement. -/
def toInt16 (v : Int) : Int :=
  (v + 32768) % 65536 - 32768

/-- Case-insensitive keyword match at the head of the input, as done by
`strptime` for `%a`/`%b` names; returns the rest of the input on success. -/
def matchKeyword : List Char → List Char → Option (List Char)
  | [], rest => some rest
  | _, [] => none
  | p :: ps, c :: cs => if p.toLower = c.toLower then matchKeyword ps cs else none

/-- Try each named keyword in order, returning its value and the rest. -/
def matchName : List (List Char × Int) → List Char → Option (Int × List Char)
  | [], _ => none
  | (pat, v) :: rest, s =>
    match matchKeyword pat s with
    | some s' => some (v, s')
    | none => matchName rest s

/-- Day names tried by `strptime` `%a` (full name, then abbreviation). -/
def dayNames : List (List Char × Int) :=
  [("Sunday".data, 0), ("Sun".data, 0), ("Monday".data, 1), ("Mon".data, 1),
   ("Tuesday".data, 2), ("Tue".data, 2), ("Wednesday".data, 3), ("Wed".data, 3),
   ("Thursday".data, 4), ("Thu".data, 4), ("Friday".data, 5), ("Fri".data, 5),
   ("Saturday".data, 6), ("Sat".data, 6)]

/-- Month names tried by `strptime` `%b` (full name, then abbreviation);
values are `tm_mon` values, i.e. 0-based. -/
def monthNames : List (List Char × Int) :=
  [("January".data, 0), ("Jan".data, 0), ("February".data, 1), ("Feb".data, 1),
   ("March".data, 2), ("Mar".data, 2), ("April".data, 3), ("Apr".data, 3),
   ("May".data, 4), ("June".data, 5), ("Jun".data, 5), ("July".data, 6),
   ("Jul".data, 6), ("August".data, 7), ("Aug".data, 7),
   ("September".data, 8), ("Sep".data, 8), ("October".data, 9), ("Oct".data, 9),
   ("November".data, 10), ("Nov".data, 10), ("December".data, 11), ("Dec".data, 11)]

/-- A `strptime` numeric field: at most `w` leading digits (at least one),
value bounded by `lo`/`hi`. -/
def parseNum (w : Nat) (lo hi : Int) (s : List Char) : Option (Int × List Char) :=
  let ds := (s.takeWhile Char.isDigit).take w
  if ds = [] then none
  else
    let v := ds.foldl (fun a c => a * 10 + ((c.toNat : Int) - 48)) 0
    if lo ≤ v ∧ v ≤ hi then some (v, s.drop ds.length) else none

/-- Whitespace in a `strptime` format skips any run of whitespace. -/
def skipWS (s : List Char) : List Char := s.dropWhile isSpaceC

/-- A non-whitespace literal in a `strptime` format must match exactly. -/
def matchLit (c : Char) : List Char → Option (List Char)
  | [] => none
  | c' :: rest => if c' = c then some rest else none

/-- Model of `strptime(output, "%a %b %d %H:%M:%S %Y", tm)`: parses weekday
name, month name, day of month, `H:M:S` and a full year, yielding the
broken-down time (`tm_year` stored as year minus 1900, `tm_mon` 0-based).
Every field of the modelled `Tm` is written by this format, so the input
`struct tm` contents do not survive into a successful result. -/
def tpStrptime (s : List Char) : Option Tm := do
  let (wday, s) ← matchName dayNames s
  let s := skipWS s
  let (mon, s) ← matchName monthNames s
  let s := skipWS s
  let (mday, s) ← parseNum 2 1 31 s
  let s := skipWS s
  let (hour, s) ← parseNum 2 0 23 s
  let s ← matchLit ':' s
  let (minute, s) ← parseNum 2 0 59 s
  let s ← matchLit ':' s
  let (sec, s) ← parseNum 2 0 61 s
  let s := skipWS s
  let (year, _) ← parseNum 4 0 9999 s
  pure { tm_sec := sec, tm_min := minute, tm_hour := hour, tm_mday := mday,
         tm_mon := mon, tm_year := year - 1900, tm_wday := wday }

/-- Model of `TpParseOutput`, the Time Protocol output-line parser.  A `strptime` failure
gives `LE_FAULT`; the buffer is not mutated.  The C null-pointer checks are
outside the model (the engine always passes valid pointers). -/
def TpParseOutput (output : List Char) (tm : Tm) : le_result × Tm × List Char :=
  match tpStrptime output with
  | none => (LE_FAULT, tm, output)
  | some t => (LE_OK, t, output)

/-- Environment of external capabilities used by the adaptor: address
classification (`inet_pton` via `IsIpAddress`), name resolution
(`getaddrinfo`/`inet_ntop` via `ResolveIpAddress`, `none` meaning the C
helper returns `LE_FAULT`), process execution (`popen` returning the list of
`fgets` chunks of the child's stdout, `none` meaning `popen` fails), the
current absolute clock (`le_clk_GetAbsoluteTime().sec`) and the local-time
calendar decomposition (`localtime_r`). -/
structure Env where
  isIpAddress : String → Bool
  resolveIp : String → Option String
  popen : String → Option (List (List Char))
  currentAbsTimeSec : Int
  localtime : Int → Tm

/-- Marker `"ntpdate"` searched first by `NtpParseOutput`. -/
def ntpdateMarker : List Char := "ntpdate".data

/-- Marker `"offset "` bounding the numeric offset field on the left. -/
def offSetString : List Char := "offset ".data

/-- Marker `" sec"` bounding the numeric offset field on the right. -/
def offSetUnitString : List Char := " sec".data

/-- Model of `NtpParseOutput`, the NTP output-line parser.  Finds the `"ntpdate"`,
`"offset "` and `" sec"` markers (any missing marker gives `LE_NOT_FOUND`),
NUL-terminates the buffer at the `" sec"` marker (a visible mutation of the
caller's buffer, returned as the third component), parses the bounded field
with `strtol` base 10 (truncating at the decimal point), adds the current
absolute time and converts the sum to local calendar time. -/
def NtpParseOutput (env : Env) (output : List Char) (tm : Tm) :
    le_result × Tm × List Char :=
  match strstr output ntpdateMarker with
  | none => (LE_NOT_FOUND, tm, output)
  | some _ =>
    match strstr output offSetString with
    | none => (LE_NOT_FOUND, tm, output)
    | some i =>
      let searchPtr := output.drop (i + offSetString.length)
      match strstr searchPtr offSetUnitString with
      | none => (LE_NOT_FOUND, tm, output)
      | some j =>
        let buf := output.set (i + offSetString.length + j) nulChar
        let offSetSecs := strtol (searchPtr.take j) + env.currentAbsTimeSec
        (LE_OK, env.localtime offSetSecs, buf)

/-- Protocol parser signature (`ClkSync_ProtocolParserFunc_t`), with the
environment for the clock reads of the NTP variant and the possibly-mutated
buffer in the result. -/
abbrev ParserFunc := Env → List Char → Tm → le_result × Tm × List Char

/-- Observable control-flow events of one engine call: a command string
built by `snprintf`, a name-resolution attempt, a `popen` execution
attempt. -/
inductive Event where
  | build (cmd : String)
  | resolve (name : String)
  | exec (cmd : String)
  deriving DecidableEq, Repr

/-- Population of the out-struct on a successful get-only parse: `msec`
fixed to 0, month shifted from `tm`'s 0-based range to 1..12, year widened
from the 1900 base to a full year. -/
def populateClockTime (tm : Tm) : ClockTime :=
  { msec := 0, sec := tm.tm_sec, min := tm.tm_min, hour := tm.tm_hour,
    day := tm.tm_mday, mon := 1 + tm.tm_mon, year := 1900 + tm.tm_year }

/-- The get-only `fgets` loop: `result` starts at `LE_FAULT`; each line is
fed to the parser, and the first `LE_OK` populates the out-struct and
breaks.  The `struct tm` is shared across iterations; the modelled parsers
leave it unchanged on failure, which is observationally equivalent since a
later success overwrites every field the population reads. -/
def getOnlyLoop (env : Env) (pf : ParserFunc) :
    List (List Char) → Tm → le_result × ClockTime
  | [], _ => (LE_FAULT, ClockTime.zero)
  | line :: rest, tm =>
    if (pf env line tm).1 = LE_OK then (LE_OK, populateClockTime (pf env line tm).2.1)
    else getOnlyLoop env pf rest (pf env line tm).2.1

/-- The sync-and-set `fgets` loop: `result` starts at `LE_UNAVAILABLE`; the
first chunk of `strlen > 1` is parsed by `strtol` and cast to `int16_t`,
with 0 mapping to `LE_OK` and anything else to `LE_FAULT`. -/
def syncSetLoop : List (List Char) → le_result
  | [] => LE_UNAVAILABLE
  | line :: rest =>
    if line.length > 1 then
      if toInt16 (strtol line) = 0 then LE_OK else LE_FAULT
    else syncSetLoop rest

/-- The `popen` section of `pa_clkSync_GetTimeFromServer`: run the protocol
command (a failing `popen` gives `LE_FAULT`), then the get-only parse loop
or the sync-and-set status-code loop; the execution attempt is appended to
the incoming trace `tr`. -/
def runCommand (env : Env) (getOnly : Bool) (protocolCommand : String)
    (parseFunc : ParserFunc) (tr : List Event) : le_result × ClockTime × List Event :=
  match env.popen protocolCommand with
  | none => (LE_FAULT, ClockTime.zero, tr ++ [Event.exec protocolCommand])
  | some lines =>
    if getOnly then
      ((getOnlyLoop env parseFunc lines Tm.zero).1,
       (getOnlyLoop env parseFunc lines Tm.zero).2,
       tr ++ [Event.exec protocolCommand])
    else
      (syncSetLoop lines, ClockTime.zero, tr ++ [Event.exec protocolCommand])

/-- Model of `pa_clkSync_GetTimeFromServer`.  The out-struct is modelled as always
present with initial contents `_t0` (the null-`timePtr` early return of the
C is outside the model); `memset` zeroes it before any other step, so that
initial value never reaches the result — the parameter is bound but unused,
which is exactly the zeroing guarantee.  Returns the `le_result`, the final
out-struct contents, and the trace of resolution/execution events. -/
def pa_clkSync_GetTimeFromServer (env : Env) (serverStrPtr : Option String)
    (getOnly : Bool) (protocolCommand : String) (parseFunc : ParserFunc)
    (_t0 : ClockTime) : le_result × ClockTime × List Event :=
  match serverStrPtr with
  | none => (LE_BAD_PARAMETER, ClockTime.zero, [])
  | some server =>
    if server = "" then (LE_BAD_PARAMETER, ClockTime.zero, [])
    else if env.isIpAddress server then
      runCommand env getOnly protocolCommand parseFunc []
    else
      match env.resolveIp server with
      | none => (LE_NOT_FOUND, ClockTime.zero, [Event.resolve server])
      | some _ => runCommand env getOnly protocolCommand parseFunc [Event.resolve server]

/-- Truncation done by `snprintf` on the 512-byte command buffer: at most 511 characters kept
(the modelled inputs are ASCII, one byte per character). -/
def snprintf511 (s : String) : String := ⟨s.data.take 511⟩

/-- The Time Protocol command built by `snprintf` into a 512-byte buffer
(hence truncation to 511 characters). -/
def tpCommand (getOnly : Bool) (server : String) : String :=
  if getOnly then snprintf511 ("/usr/sbin/rdate -p " ++ server)
  else snprintf511 ("/usr/sbin/rdate " ++ server ++ " >& /dev/null; echo $?")

/-- The NTP command built by `snprintf` into a 512-byte buffer. -/
def ntpCommand (getOnly : Bool) (server : String) : String :=
  if getOnly then snprintf511 ("/usr/sbin/ntpdate -t 1.0 -p 1 -q " ++ server ++ "; echo $?")
  else snprintf511 ("/usr/sbin/ntpdate -t 1.0 -p 1 " ++ server ++ " >& /dev/null; echo $?")

/-- Model of `pa_clkSync_GetTimeWithTimeProtocol`: builds the TP command (before the
engine runs, hence the leading `build` event; glibc renders a NULL `%s`
argument as `"(null)"`) and delegates to the engine with `TpParseOutput`. -/
def pa_clkSync_GetTimeWithTimeProtocol (env : Env) (serverStrPtr : Option String)
    (getOnly : Bool) (t0 : ClockTime) : le_result × ClockTime × List Event :=
  let cmd := tpCommand getOnly (serverStrPtr.getD "(null)")
  let r := pa_clkSync_GetTimeFromServer env serverStrPtr getOnly cmd
             (fun _ out tm => TpParseOutput out tm) t0
  (r.1, r.2.1, Event.build cmd :: r.2.2)

/-- Model of `pa_clkSync_GetTimeWithNetworkTimeProtocol`: builds the NTP command and
delegates to the engine with `NtpParseOutput`. -/
def pa_clkSync_GetTimeWithNetworkTimeProtocol (env : Env) (serverStrPtr : Option String)
    (getOnly : Bool) (t0 : ClockTime) : le_result × ClockTime × List Event :=
  let cmd := ntpCommand getOnly (serverStrPtr.getD "(null)")
  let r := pa_clkSync_GetTimeFromServer env serverStrPtr getOnly cmd
             NtpParseOutput t0
  (r.1, r.2.1, Event.build cmd :: r.2.2)

/-- The spec's example Time Protocol output line. -/
def tpExampleLine : List Char := "Tue Jan 02 15:04:05 2024".data

/-- The spec's example `ntpdate` output line. -/
def ntpExampleLine : List Char :=
  "1 Jan 07:33:20 ntpdate[29329]: step time server 5.196.160.139 offset 1558374338.202418 sec".data

/-- Modelled from the spec: "fully populated with a consistent calendar
date" for a `ClockTime` — month in 1..12, day in 1..31, hour 0..23, minute
0..59, second 0..59, millisecond fixed 0 (the spec's year is any full
year). -/
def ClockTime.consistentCalendar (t : ClockTime) : Prop :=
  1 ≤ t.mon ∧ t.mon ≤ 12 ∧ 1 ≤ t.day ∧ t.day ≤ 31 ∧
  0 ≤ t.hour ∧ t.hour ≤ 23 ∧ 0 ≤ t.min ∧ t.min ≤ 59 ∧
  0 ≤ t.sec ∧ t.sec ≤ 59 ∧ t.msec = 0

instance (t : ClockTime) : Decidable t.consistentCalendar := by
  unfold ClockTime.consistentCalendar; infer_instance

/-- A concrete environment for counterexamples and witnesses: constant
classification, resolution and process-output behaviour, absolute time 0,
and a `localtime_r` that stores the epoch seconds in `tm_sec`. -/
def mkEnv (ip : Bool) (res : Option String) (out : Option (List (List Char))) : Env :=
  { isIpAddress := fun _ => ip
    resolveIp := fun _ => res
    popen := fun _ => out
    currentAbsTimeSec := 0
    localtime := fun s =>
      { tm_sec := s, tm_min := 0, tm_hour := 0, tm_mday := 0,
        tm_mon := 0, tm_year := 0, tm_wday := 0 } }

/-! Helper lemmas about the string primitives and the engine loops. -/

theorem strstr_prefix_of_some {h pat : List Char} :
    ∀ {j : Nat}, strstr h pat = some j → pat <+: h.drop j := by
  induction h with
  | nil =>
    intro j hj
    unfold strstr at hj
    split at hj
    · rename_i hp
      injection hj with hj0
      subst hj0
      simpa using List.isPrefixOf_iff_prefix.mp hp
    · simp at hj
  | cons c t ih =>
    intro j hj
    unfold strstr at hj
    split at hj
    · rename_i hp
      injection hj with hj0
      subst hj0
      simpa using List.isPrefixOf_iff_prefix.mp hp
    · simp only [Option.map_eq_some'] at hj
      obtain ⟨j', hj', rfl⟩ := hj
      simpa using ih hj'

theorem strstr_getElem_of_some {h : List Char} {c : Char} {p : List Char} {j : Nat}
    (hj : strstr h (c :: p) = some j) : h[j]? = some c := by
  obtain ⟨t, ht⟩ := strstr_prefix_of_some hj
  have hh : (h.drop j).head? = some c := by rw [← ht]; rfl
  rwa [List.head?_drop] at hh

theorem getOnlyLoop_shape (env : Env) (pf : ParserFunc) :
    ∀ (lines : List (List Char)) (tm : Tm),
      getOnlyLoop env pf lines tm = (LE_FAULT, ClockTime.zero) ∨
      ∃ t, getOnlyLoop env pf lines tm = (LE_OK, populateClockTime t) := by
  intro lines
  induction lines with
  | nil => intro tm; left; rfl
  | cons line rest ih =>
    intro tm
    rw [getOnlyLoop]
    split
    · right; exact ⟨_, rfl⟩
    · exact ih _

theorem getOnlyLoop_fail (env : Env) (pf : ParserFunc) :
    ∀ (lines : List (List Char)) (tm : Tm),
      (∀ line ∈ lines, ∀ t, (pf env line t).1 ≠ LE_OK) →
      getOnlyLoop env pf lines tm = (LE_FAULT, ClockTime.zero) := by
  intro lines
  induction lines with
  | nil => intro tm _; rfl
  | cons line rest ih =>
    intro tm hf
    rw [getOnlyLoop, if_neg (hf line (List.mem_cons_self line rest) tm)]
    exact ih _ fun l hl t => hf l (List.mem_cons_of_mem _ hl) t

theorem syncSetLoop_cases :
    ∀ lines : List (List Char),
      syncSetLoop lines = LE_UNAVAILABLE ∨ syncSetLoop lines = LE_OK ∨
      syncSetLoop lines = LE_FAULT := by
  intro lines
  induction lines with
  | nil => left; rfl
  | cons line rest ih =>
    rw [syncSetLoop]
    split
    · split
      · right; left; rfl
      · right; right; rfl
    · exact ih

theorem syncSetLoop_append_blanks :
    ∀ (blanks rest : List (List Char)), (∀ b ∈ blanks, b.length ≤ 1) →
      syncSetLoop (blanks ++ rest) = syncSetLoop rest := by
  intro blanks
  induction blanks with
  | nil => intro rest _; rfl
  | cons b bs ih =>
    intro rest hb
    have h1 : ¬ (b.length > 1) := by
      have := hb b (List.mem_cons_self b bs)
      omega
    rw [List.cons_append, syncSetLoop, if_neg h1]
    exact ih rest fun x hx => hb x (List.mem_cons_of_mem _ hx)

theorem runCommand_ne_unsupported (env : Env) (getOnly : Bool) (cmd : String)
    (pf : ParserFunc) (tr : List Event) :
    (runCommand env getOnly cmd pf tr).1 ≠ LE_UNSUPPORTED := by
  unfold runCommand
  split
  · simp
  · rename_i lines heq
    split
    · rcases getOnlyLoop_shape env pf lines Tm.zero with h | ⟨t, h⟩ <;> simp [h]
    · rcases syncSetLoop_cases lines with h | h | h <;> simp [h]

theorem runCommand_some (env : Env) (getOnly : Bool) (cmd : String)
    (pf : ParserFunc) (tr : List Event) (lines : List (List Char))
    (hp : env.popen cmd = some lines) :
    runCommand env getOnly cmd pf tr =
      (if getOnly then (getOnlyLoop env pf lines Tm.zero).1 else syncSetLoop lines,
       if getOnly then (getOnlyLoop env pf lines Tm.zero).2 else ClockTime.zero,
       tr ++ [Event.exec cmd]) := by
  unfold runCommand
  rw [hp]
  cases getOnly <;> simp

theorem engine_valid (env : Env) (server : String) (getOnly : Bool) (cmd : String)
    (pf : ParserFunc) (t0 : ClockTime) (hne : server ≠ "")
    (hv : env.isIpAddress server = true ∨ ∃ a, env.resolveIp server = some a) :
    pa_clkSync_GetTimeFromServer env (some server) getOnly cmd pf t0 =
      runCommand env getOnly cmd pf
        (if env.isIpAddress server then [] else [Event.resolve server]) := by
  unfold pa_clkSync_GetTimeFromServer
  rcases hv with hip | ⟨a, hres⟩
  · simp [hne, hip]
  · by_cases hip : env.isIpAddress server = true
    · simp [hne, hip]
    · simp [hne, hip, hres]

theorem engine_ne_unsupported (env : Env) (sp : Option String) (getOnly : Bool)
    (cmd : String) (pf : ParserFunc) (t0 : ClockTime) :
    (pa_clkSync_GetTimeFromServer env sp getOnly cmd pf t0).1 ≠ LE_UNSUPPORTED := by
  unfold pa_clkSync_GetTimeFromServer
  rcases sp with _ | server
  · simp
  · by_cases hne : server = ""
    · simp [hne]
    · by_cases hip : env.isIpAddress server = true
      · simp only [hne, hip, if_neg, if_pos, if_true, if_false]
        exact runCommand_ne_unsupported env getOnly cmd pf []
      · cases hres : env.resolveIp server with
        | none => simp [hne, hip, hres]
        | some a =>
          simp only [hne, hip, hres, if_neg, if_pos, if_true, if_false]
          have := runCommand_ne_unsupported env getOnly cmd pf [Event.resolve server]
          simpa [hne, hip, hres] using this

/-! Claim theorems. -/

/-- C9: for every protocol and every mode, calling either caller-facing
operation with an empty or null server string returns `LE_BAD_PARAMETER`
(the spec's InvalidArgument). -/
theorem C9_empty_server_bad_parameter (env : Env) (getOnly : Bool) (t0 : ClockTime) :
    (pa_clkSync_GetTimeWithTimeProtocol env none getOnly t0).1 = LE_BAD_PARAMETER ∧
    (pa_clkSync_GetTimeWithTimeProtocol env (some "") getOnly t0).1 = LE_BAD_PARAMETER ∧
    (pa_clkSync_GetTimeWithNetworkTimeProtocol env none getOnly t0).1 = LE_BAD_PARAMETER ∧
    (pa_clkSync_GetTimeWithNetworkTimeProtocol env (some "") getOnly t0).1 = LE_BAD_PARAMETER :=
  ⟨rfl, rfl, rfl, rfl⟩

/-- C8: an input line in which the `"offset "` marker is absent, or in
which no `" sec"` marker follows it, makes `NtpParseOutput` return
`LE_NOT_FOUND` — not a fault/error result. -/
theorem C8_missing_marker_notfound (env : Env) (line : List Char) (tm : Tm)
    (h : strstr line offSetString = none ∨
         ∃ i, strstr line offSetString = some i ∧
           strstr (line.drop (i + offSetString.length)) offSetUnitString = none) :
    (NtpParseOutput env line tm).1 = LE_NOT_FOUND := by
  unfold NtpParseOutput
  cases hnt : strstr line ntpdateMarker with
  | none => rfl
  | some k =>
    rcases h with h | ⟨i, hi, hs⟩
    · simp [h]
    · simp [hi, hs]

/-- Witness for C8 at the concrete line `"hello\n"`. -/
theorem C8_witness :
    (NtpParseOutput (mkEnv true none none) "hello\n".data Tm.zero).1 = LE_NOT_FOUND :=
  C8_missing_marker_notfound (mkEnv true none none) "hello\n".data Tm.zero
    (Or.inl (by decide))

/-- C10: when the `"ntpdate"`, `"offset "` and `" sec"` markers are all
found, `NtpParseOutput` overwrites the first character of the `" sec"`
marker in the caller's buffer with NUL before parsing the numeric field, so
the buffer comes back changed. -/
theorem C10_buffer_mutation (env : Env) (buf0 : List Char) (tm : Tm) (k i j : Nat)
    (hk : strstr buf0 ntpdateMarker = some k)
    (hi : strstr buf0 offSetString = some i)
    (hj : strstr (buf0.drop (i + offSetString.length)) offSetUnitString = some j) :
    (NtpParseOutput env buf0 tm).2.2 =
      buf0.set (i + offSetString.length + j) nulChar ∧
    (NtpParseOutput env buf0 tm).2.2 ≠ buf0 := by
  have h1 : (NtpParseOutput env buf0 tm).2.2 =
      buf0.set (i + offSetString.length + j) nulChar := by
    unfold NtpParseOutput
    simp [hk, hi, hj]
  refine ⟨h1, ?_⟩
  rw [h1]
  have hsp : (buf0.drop (i + offSetString.length))[j]? = some ' ' := by
    have hu : offSetUnitString = ' ' :: "sec".data := rfl
    rw [hu] at hj
    exact strstr_getElem_of_some hj
  have hidx : buf0[i + offSetString.length + j]? = some ' ' := by
    rw [List.getElem?_drop] at hsp
    exact hsp
  intro hEq
  obtain ⟨hlt, -⟩ := List.getElem?_eq_some.mp hidx
  have hset : (buf0.set (i + offSetString.length + j) nulChar)[i + offSetString.length + j]? =
      some nulChar :=
    List.getElem?_set_eq_of_lt nulChar hlt
  rw [hEq, hidx] at hset
  have hc : ' ' = nulChar := by injection hset
  exact absurd hc (by decide)

/-- Witness for C10 at the spec's example `ntpdate` line (markers at 15, 62
and 17). -/
theorem C10_witness :
    (NtpParseOutput (mkEnv true none none) ntpExampleLine Tm.zero).2.2 =
      ntpExampleLine.set (62 + offSetString.length + 17) nulChar ∧
    (NtpParseOutput (mkEnv true none none) ntpExampleLine Tm.zero).2.2 ≠ ntpExampleLine :=
  C10_buffer_mutation (mkEnv true none none) ntpExampleLine Tm.zero 15 62 17
    (by decide) (by decide) (by decide)

theorem ntpExample_marker : strstr ntpExampleLine ntpdateMarker = some 15 := by decide

theorem ntpExample_offset : strstr ntpExampleLine offSetString = some 62 := by decide

theorem ntpExample_unit : strstr (ntpExampleLine.drop 69) offSetUnitString = some 17 := by
  decide

theorem ntpExample_strtol : strtol ((ntpExampleLine.drop 69).take 17) = 1558374338 := by
  decide

theorem offSetString_len : offSetString.length = 7 := rfl

/-- C6: on the spec's example `ntpdate` line, with the current absolute
time reading 0 seconds, `NtpParseOutput` succeeds and yields the local-time
calendar decomposition of epoch-seconds 1558374338; the fractional part
`.202418` of the offset is dropped because the base-10 `strtol` stops at the
decimal point (truncation, not rounding), before the addition of the
current time. -/
theorem C6_ntp_example_line (env : Env) (tm : Tm) (h : env.currentAbsTimeSec = 0) :
    (NtpParseOutput env ntpExampleLine tm).1 = LE_OK ∧
    (NtpParseOutput env ntpExampleLine tm).2.1 = env.localtime 1558374338 := by
  have hre : NtpParseOutput env ntpExampleLine tm =
      (LE_OK, env.localtime (1558374338 + env.currentAbsTimeSec),
        ntpExampleLine.set 86 nulChar) := by
    unfold NtpParseOutput
    simp [ntpExample_marker, ntpExample_offset, offSetString_len, ntpExample_unit,
          ntpExample_strtol]
  rw [hre, h]
  norm_num

/-- Witness for C6 with a concrete environment whose absolute time is 0. -/
theorem C6_witness :
    (NtpParseOutput (mkEnv true none none) ntpExampleLine Tm.zero).1 = LE_OK ∧
    (NtpParseOutput (mkEnv true none none) ntpExampleLine Tm.zero).2.1 =
      (mkEnv true none none).localtime 1558374338 :=
  C6_ntp_example_line (mkEnv true none none) Tm.zero rfl

theorem tpExample_parse :
    TpParseOutput tpExampleLine Tm.zero =
      (LE_OK, ⟨5, 4, 15, 2, 0, 124, 2⟩, tpExampleLine) := by decide

/-- C5: when the process output consists of the spec's example Time
Protocol line, the get-only Time Protocol operation succeeds with the
ClockTime 2024-01-02 15:04:05 (millisecond 0): the month is shifted from
`struct tm`'s 0-based range to 1..12 and the year widened from the 1900
base to a full year. -/
theorem C5_tp_example_line (env : Env) (server : String) (t0 : ClockTime)
    (hne : server ≠ "") (hip : env.isIpAddress server = true)
    (hp : env.popen (tpCommand true server) = some [tpExampleLine]) :
    (pa_clkSync_GetTimeWithTimeProtocol env (some server) true t0).1 = LE_OK ∧
    (pa_clkSync_GetTimeWithTimeProtocol env (some server) true t0).2.1 =
      { msec := 0, sec := 5, min := 4, hour := 15, day := 2, mon := 1, year := 2024 } := by
  have hloop : getOnlyLoop env (fun _ out tm => TpParseOutput out tm) [tpExampleLine] Tm.zero =
      (LE_OK, { msec := 0, sec := 5, min := 4, hour := 15, day := 2, mon := 1, year := 2024 }) := by
    rw [getOnlyLoop]
    simp [tpExample_parse, populateClockTime]
  have heng := engine_valid env server true (tpCommand true server)
      (fun _ out tm => TpParseOutput out tm) t0 hne (Or.inl hip)
  unfold pa_clkSync_GetTimeWithTimeProtocol
  simp only [Option.getD_some]
  rw [heng, runCommand_some env true (tpCommand true server)
        (fun _ out tm => TpParseOutput out tm) _ [tpExampleLine] hp]
  simp [hloop]

/-- Witness for C5 with a concrete literal-address environment. -/
theorem C5_witness :
    (pa_clkSync_GetTimeWithTimeProtocol (mkEnv true none (some [tpExampleLine]))
        (some "1.2.3.4") true ClockTime.zero).1 = LE_OK ∧
    (pa_clkSync_GetTimeWithTimeProtocol (mkEnv true none (some [tpExampleLine]))
        (some "1.2.3.4") true ClockTime.zero).2.1 =
      { msec := 0, sec := 5, min := 4, hour := 15, day := 2, mon := 1, year := 2024 } :=
  C5_tp_example_line (mkEnv true none (some [tpExampleLine])) "1.2.3.4" ClockTime.zero
    (by decide) rfl rfl

theorem syncSetLoop_zero (rest : List (List Char)) :
    syncSetLoop ("0\n".data :: rest) = LE_OK := by
  rw [syncSetLoop, if_pos (by decide : "0\n".data.length > 1),
      if_pos (by decide : toInt16 (strtol "0\n".data) = 0)]

theorem syncSetLoop_one (rest : List (List Char)) :
    syncSetLoop ("1\n".data :: rest) = LE_FAULT := by
  rw [syncSetLoop, if_pos (by decide : "1\n".data.length > 1),
      if_neg (by decide : ¬ toInt16 (strtol "1\n".data) = 0)]

theorem syncSetLoop_all_blank (lines : List (List Char))
    (h : ∀ b ∈ lines, b.length ≤ 1) : syncSetLoop lines = LE_UNAVAILABLE := by
  have h2 := syncSetLoop_append_blanks lines [] h
  rw [List.append_nil] at h2
  exact h2.trans rfl

theorem runCommand_shape (env : Env) (getOnly : Bool) (cmd : String)
    (pf : ParserFunc) (tr : List Event) :
    ((runCommand env getOnly cmd pf tr).1 = LE_OK → getOnly = true →
      ∃ tm, (runCommand env getOnly cmd pf tr).2.1 = populateClockTime tm) ∧
    ((runCommand env getOnly cmd pf tr).1 ≠ LE_OK →
      (runCommand env getOnly cmd pf tr).2.1 = ClockTime.zero) ∧
    (getOnly = false → (runCommand env getOnly cmd pf tr).2.1 = ClockTime.zero) := by
  unfold runCommand
  cases hpo : env.popen cmd with
  | none => exact ⟨fun hok => absurd hok (by simp), fun _ => rfl, fun _ => rfl⟩
  | some lines =>
    cases getOnly with
    | false =>
      refine ⟨fun _ h => absurd h (by simp), fun _ => by simp, fun _ => by simp⟩
    | true =>
      rcases getOnlyLoop_shape env pf lines Tm.zero with h | ⟨t, h⟩
      · exact ⟨fun hok => absurd hok (by simp [h]), fun _ => by simp [h],
               fun hgo => absurd hgo (by simp)⟩
      · exact ⟨fun _ _ => ⟨t, by simp [h]⟩, fun hok => absurd (by simp [h]) hok,
               fun hgo => absurd hgo (by simp)⟩

theorem engine_shape (env : Env) (sp : Option String) (getOnly : Bool)
    (cmd : String) (pf : ParserFunc) (t0 : ClockTime) :
    ((pa_clkSync_GetTimeFromServer env sp getOnly cmd pf t0).1 = LE_OK → getOnly = true →
      ∃ tm, (pa_clkSync_GetTimeFromServer env sp getOnly cmd pf t0).2.1 =
        populateClockTime tm) ∧
    ((pa_clkSync_GetTimeFromServer env sp getOnly cmd pf t0).1 ≠ LE_OK →
      (pa_clkSync_GetTimeFromServer env sp getOnly cmd pf t0).2.1 = ClockTime.zero) ∧
    (getOnly = false →
      (pa_clkSync_GetTimeFromServer env sp getOnly cmd pf t0).2.1 = ClockTime.zero) := by
  unfold pa_clkSync_GetTimeFromServer
  rcases sp with _ | server
  · exact ⟨fun hok => absurd hok (by simp), fun _ => rfl, fun _ => rfl⟩
  · dsimp only
    by_cases hne : server = ""
    · rw [if_pos hne]
      exact ⟨fun hok => absurd hok (by simp), fun _ => rfl, fun _ => rfl⟩
    · rw [if_neg hne]
      by_cases hip : env.isIpAddress server = true
      · rw [if_pos hip]
        exact runCommand_shape env getOnly cmd pf []
      · rw [if_neg hip]
        cases hres : env.resolveIp server with
        | none =>
          exact ⟨fun hok => absurd hok (by simp), fun _ => rfl, fun _ => rfl⟩
        | some a =>
          exact runCommand_shape env getOnly cmd pf [Event.resolve server]

/-- C1 counterexample: with a hostname server whose resolution fails, the
NTP get-only operation returns `LE_NOT_FOUND` — not `LE_UNSUPPORTED` — and
its trace records a name-resolution attempt, refuting both the claimed
result and the claimed absence of a resolution attempt. -/
theorem C1_counterexample :
    (pa_clkSync_GetTimeWithNetworkTimeProtocol (mkEnv false none none)
        (some "pool.ntp.org") true ClockTime.zero).1 = LE_NOT_FOUND ∧
    LE_NOT_FOUND ≠ LE_UNSUPPORTED ∧
    Event.resolve "pool.ntp.org" ∈
      (pa_clkSync_GetTimeWithNetworkTimeProtocol (mkEnv false none none)
        (some "pool.ntp.org") true ClockTime.zero).2.2 :=
  ⟨by decide, by decide, by decide⟩

/-- C1 amended: the NTP get-only path is handled like every other
combination — the operation never returns `LE_UNSUPPORTED` (the code has no
such return), it attempts name resolution for a non-literal server, and it
attempts execution of the query command for a literal server. -/
theorem C1_ntp_getonly_not_unsupported (env : Env) (server : String) (t0 : ClockTime)
    (hne : server ≠ "") :
    (pa_clkSync_GetTimeWithNetworkTimeProtocol env (some server) true t0).1 ≠
      LE_UNSUPPORTED ∧
    (env.isIpAddress server = false →
      Event.resolve server ∈
        (pa_clkSync_GetTimeWithNetworkTimeProtocol env (some server) true t0).2.2) ∧
    (env.isIpAddress server = true →
      Event.exec (ntpCommand true server) ∈
        (pa_clkSync_GetTimeWithNetworkTimeProtocol env (some server) true t0).2.2) := by
  unfold pa_clkSync_GetTimeWithNetworkTimeProtocol
  simp only [Option.getD_some]
  refine ⟨?_, ?_, ?_⟩
  · simpa using
      engine_ne_unsupported env (some server) true (ntpCommand true server) NtpParseOutput t0
  · intro hip
    unfold pa_clkSync_GetTimeFromServer runCommand
    cases hres : env.resolveIp server with
    | none => simp [hne, hip, hres]
    | some a =>
      cases hpo : env.popen (ntpCommand true server) with
      | none => simp [hne, hip, hres, hpo]
      | some lines => simp [hne, hip, hres, hpo]
  · intro hip
    unfold pa_clkSync_GetTimeFromServer runCommand
    cases hpo : env.popen (ntpCommand true server) with
    | none => simp [hne, hip, hpo]
    | some lines => simp [hne, hip, hpo]

/-- Witness for C1's amended theorem at a concrete failing-resolution
environment. -/
theorem C1_witness :
    ((pa_clkSync_GetTimeWithNetworkTimeProtocol (mkEnv false none none)
        (some "pool.ntp.org") true ClockTime.zero).1 ≠ LE_UNSUPPORTED ∧
    ((mkEnv false none none).isIpAddress "pool.ntp.org" = false →
      Event.resolve "pool.ntp.org" ∈
        (pa_clkSync_GetTimeWithNetworkTimeProtocol (mkEnv false none none)
          (some "pool.ntp.org") true ClockTime.zero).2.2) ∧
    ((mkEnv false none none).isIpAddress "pool.ntp.org" = true →
      Event.exec (ntpCommand true "pool.ntp.org") ∈
        (pa_clkSync_GetTimeWithNetworkTimeProtocol (mkEnv false none none)
          (some "pool.ntp.org") true ClockTime.zero).2.2)) :=
  C1_ntp_getonly_not_unsupported (mkEnv false none none) "pool.ntp.org" ClockTime.zero
    (by decide)

/-- C2 counterexample: a get-only call whose output is exhausted without a
successful parse returns `LE_FAULT`, not `LE_UNAVAILABLE`. -/
theorem C2_counterexample :
    (pa_clkSync_GetTimeWithTimeProtocol (mkEnv true none (some ["garbage\n".data]))
        (some "1.2.3.4") true ClockTime.zero).1 = LE_FAULT ∧
    LE_FAULT ≠ LE_UNAVAILABLE :=
  ⟨by decide, by decide⟩

/-- C2 amended: a get-only call whose process output is exhausted without
any line being parsed successfully returns `LE_FAULT` (the loop's `result`
is initialised to `LE_FAULT`); `LE_UNAVAILABLE` is the sync-and-set path's
no-output outcome. -/
theorem C2_getonly_exhaustion_fault (env : Env) (server cmd : String)
    (pf : ParserFunc) (t0 : ClockTime) (lines : List (List Char))
    (hne : server ≠ "")
    (hv : env.isIpAddress server = true ∨ ∃ a, env.resolveIp server = some a)
    (hp : env.popen cmd = some lines)
    (hfail : ∀ l ∈ lines, ∀ t, (pf env l t).1 ≠ LE_OK) :
    (pa_clkSync_GetTimeFromServer env (some server) true cmd pf t0).1 = LE_FAULT := by
  rw [engine_valid env server true cmd pf t0 hne hv,
      runCommand_some env true cmd pf _ lines hp]
  simp [getOnlyLoop_fail env pf lines Tm.zero hfail]

/-- Witness for C2's amended theorem on a one-line unparseable output. -/
theorem C2_witness :
    (pa_clkSync_GetTimeFromServer (mkEnv true none (some ["garbage\n".data]))
        (some "1.2.3.4") true "cmd" (fun _ out tm => TpParseOutput out tm)
        ClockTime.zero).1 = LE_FAULT :=
  C2_getonly_exhaustion_fault (mkEnv true none (some ["garbage\n".data])) "1.2.3.4" "cmd"
    (fun _ out tm => TpParseOutput out tm) ClockTime.zero ["garbage\n".data]
    (by decide) (Or.inl rfl) rfl
    (by
      intro l hl t
      simp only [List.mem_singleton] at hl
      subst hl
      have hg : tpStrptime "garbage\n".data = none := by decide
      simp [TpParseOutput, hg])

/-- C3 counterexample: on a failing resolution the result is
`LE_NOT_FOUND`, but the protocol command has already been built by the
wrapper before resolution was attempted — the trace contains a build event,
contradicting the claim that the command is not built. -/
theorem C3_counterexample :
    (pa_clkSync_GetTimeWithTimeProtocol (mkEnv false none none) (some "bad.host")
        true ClockTime.zero).1 = LE_NOT_FOUND ∧
    Event.build (tpCommand true "bad.host") ∈
      (pa_clkSync_GetTimeWithTimeProtocol (mkEnv false none none) (some "bad.host")
        true ClockTime.zero).2.2 :=
  ⟨by decide, by decide⟩

/-- C3 amended: when a non-literal server fails to resolve, the Time
Protocol operation returns `LE_NOT_FOUND` and no external process is
executed; the protocol command string is, however, built unconditionally by
the wrapper before resolution is attempted. -/
theorem C3_resolution_failure_notfound (env : Env) (server : String) (getOnly : Bool)
    (t0 : ClockTime) (hne : server ≠ "") (hip : env.isIpAddress server = false)
    (hres : env.resolveIp server = none) :
    (pa_clkSync_GetTimeWithTimeProtocol env (some server) getOnly t0).1 = LE_NOT_FOUND ∧
    (∀ c, Event.exec c ∉
      (pa_clkSync_GetTimeWithTimeProtocol env (some server) getOnly t0).2.2) ∧
    Event.build (tpCommand getOnly server) ∈
      (pa_clkSync_GetTimeWithTimeProtocol env (some server) getOnly t0).2.2 := by
  have heng : pa_clkSync_GetTimeFromServer env (some server) getOnly
      (tpCommand getOnly server) (fun _ out tm => TpParseOutput out tm) t0 =
      (LE_NOT_FOUND, ClockTime.zero, [Event.resolve server]) := by
    unfold pa_clkSync_GetTimeFromServer
    simp [hne, hip, hres]
  unfold pa_clkSync_GetTimeWithTimeProtocol
  simp only [Option.getD_some]
  rw [heng]
  refine ⟨rfl, ?_, ?_⟩
  · intro c
    simp
  · simp

/-- Witness for C3's amended theorem at a concrete failing resolution. -/
theorem C3_witness :
    ((pa_clkSync_GetTimeWithTimeProtocol (mkEnv false none none) (some "bad.host")
        false ClockTime.zero).1 = LE_NOT_FOUND ∧
    (∀ c, Event.exec c ∉
      (pa_clkSync_GetTimeWithTimeProtocol (mkEnv false none none) (some "bad.host")
        false ClockTime.zero).2.2) ∧
    Event.build (tpCommand false "bad.host") ∈
      (pa_clkSync_GetTimeWithTimeProtocol (mkEnv false none none) (some "bad.host")
        false ClockTime.zero).2.2) :=
  C3_resolution_failure_notfound (mkEnv false none none) "bad.host" false ClockTime.zero
    (by decide) rfl rfl

/-- C4 counterexample: a sync-and-set call whose output status line is
`"0"` returns success while the out-struct stays all-zero, which is not a
fully-populated consistent calendar date (its month is 0) — refuting the
claim that every success result is fully populated. -/
theorem C4_counterexample :
    (pa_clkSync_GetTimeWithTimeProtocol (mkEnv true none (some ["0\n".data]))
        (some "1.2.3.4") false ClockTime.zero).1 = LE_OK ∧
    (pa_clkSync_GetTimeWithTimeProtocol (mkEnv true none (some ["0\n".data]))
        (some "1.2.3.4") false ClockTime.zero).2.1 = ClockTime.zero ∧
    ¬ ClockTime.consistentCalendar ClockTime.zero :=
  ⟨by decide, by decide, by decide⟩

/-- C4 amended: the out-struct is fully zeroed before population (the
result does not depend on its initial contents); every non-success result
leaves it all-zero; a get-only success populates all seven fields from the
parsed broken-down time; a sync-and-set call never populates it — on
success it stays all-zero. -/
theorem C4_zeroing_and_population (env : Env) (sp : Option String) (getOnly : Bool)
    (cmd : String) (pf : ParserFunc) (t0 t1 : ClockTime) :
    pa_clkSync_GetTimeFromServer env sp getOnly cmd pf t0 =
      pa_clkSync_GetTimeFromServer env sp getOnly cmd pf t1 ∧
    (getOnly = false →
      (pa_clkSync_GetTimeFromServer env sp getOnly cmd pf t0).2.1 = ClockTime.zero) ∧
    ((pa_clkSync_GetTimeFromServer env sp getOnly cmd pf t0).1 ≠ LE_OK →
      (pa_clkSync_GetTimeFromServer env sp getOnly cmd pf t0).2.1 = ClockTime.zero) ∧
    ((pa_clkSync_GetTimeFromServer env sp getOnly cmd pf t0).1 = LE_OK → getOnly = true →
      ∃ tm, (pa_clkSync_GetTimeFromServer env sp getOnly cmd pf t0).2.1 =
        populateClockTime tm) := by
  obtain ⟨hOK, hnOK, hfalse⟩ := engine_shape env sp getOnly cmd pf t0
  exact ⟨rfl, hfalse, hnOK, hOK⟩

/-- Witness for C4's amended theorem: a sync-and-set success starting from
a nonzero initial struct still comes back all-zero. -/
theorem C4_witness :
    (pa_clkSync_GetTimeFromServer (mkEnv true none (some ["0\n".data])) (some "1.2.3.4")
        false "cmd" (fun _ out tm => TpParseOutput out tm)
        { msec := 1, sec := 2, min := 3, hour := 4, day := 5, mon := 6, year := 7 }).2.1 =
      ClockTime.zero :=
  (C4_zeroing_and_population (mkEnv true none (some ["0\n".data])) (some "1.2.3.4")
      false "cmd" (fun _ out tm => TpParseOutput out tm)
      { msec := 1, sec := 2, min := 3, hour := 4, day := 5, mon := 6, year := 7 }
      ClockTime.zero).2.1 rfl

/-- C7: in sync-and-set mode, with the process launched, a first non-blank
output chunk `"0\n"` yields `LE_OK`, a first non-blank chunk `"1\n"` yields
`LE_FAULT`, and an output with no chunk longer than one character (all
blank lines, or no output) yields `LE_UNAVAILABLE`.  Chunks are as returned
by `fgets`, i.e. they keep their trailing newline, so the stream line `"0"`
is the chunk `"0\n"`. -/
theorem C7_syncset_status_mapping (env : Env) (server cmd : String) (pf : ParserFunc)
    (t0 : ClockTime) (lines : List (List Char))
    (hne : server ≠ "")
    (hv : env.isIpAddress server = true ∨ ∃ a, env.resolveIp server = some a)
    (hp : env.popen cmd = some lines) :
    (∀ blanks rest, lines = blanks ++ "0\n".data :: rest →
      (∀ b ∈ blanks, b.length ≤ 1) →
      (pa_clkSync_GetTimeFromServer env (some server) false cmd pf t0).1 = LE_OK) ∧
    (∀ blanks rest, lines = blanks ++ "1\n".data :: rest →
      (∀ b ∈ blanks, b.length ≤ 1) →
      (pa_clkSync_GetTimeFromServer env (some server) false cmd pf t0).1 = LE_FAULT) ∧
    ((∀ b ∈ lines, b.length ≤ 1) →
      (pa_clkSync_GetTimeFromServer env (some server) false cmd pf t0).1 = LE_UNAVAILABLE) := by
  have hres : (pa_clkSync_GetTimeFromServer env (some server) false cmd pf t0).1 =
      syncSetLoop lines := by
    rw [engine_valid env server false cmd pf t0 hne hv,
        runCommand_some env false cmd pf _ lines hp]
    simp
  refine ⟨?_, ?_, ?_⟩
  · intro blanks rest hlines hblank
    rw [hres, hlines, syncSetLoop_append_blanks blanks _ hblank, syncSetLoop_zero]
  · intro blanks rest hlines hblank
    rw [hres, hlines, syncSetLoop_append_blanks blanks _ hblank, syncSetLoop_one]
  · intro hall
    rw [hres, syncSetLoop_all_blank lines hall]

/-- Witness for C7: one blank chunk followed by the `"0\n"` status chunk
gives success. -/
theorem C7_witness :
    (pa_clkSync_GetTimeFromServer (mkEnv true none (some ["\n".data, "0\n".data]))
        (some "1.2.3.4") false "cmd" (fun _ out tm => TpParseOutput out tm)
        ClockTime.zero).1 = LE_OK :=
  (C7_syncset_status_mapping (mkEnv true none (some ["\n".data, "0\n".data])) "1.2.3.4"
      "cmd" (fun _ out tm => TpParseOutput out tm) ClockTime.zero
      ["\n".data, "0\n".data] (by decide) (Or.inl rfl) rfl).1
    ["\n".data] [] rfl (by decide)

end ClkSync
